import Mathlib

/-!
Verification development for the liquidations-chart pipeline.

The embedding below is a shallow model of the two pipeline source files:

* `src/summary.py` — `summarize_liquidations` and `convert_timestamp_to_date`:
  reading all local per-date CSV files, deduplicating the concatenated raw
  records, grouping by (date, side), pivoting to one row per date and
  computing a volume-weighted daily price.
* `src/data.py` — `get_existing_files` (remote S3 listing),
  `extract_date_from_filename`, `get_local_dates` (local scan),
  `download_and_extract_zip` (fetch + unzip of one date's archive) and the
  set-difference sync plan inside `get_new_data`.

Modelling conventions:

* Calendar dates are day indices (days since the Unix epoch), obtained from a
  millisecond timestamp exactly as `convert_timestamp_to_date` does
  (`utcfromtimestamp(ms / 1000)` truncated to the day): day 19723 is
  2024-01-01.
* pandas floats are modelled by `ℚ`; a pandas `NaN` produced by `0/0` (and
  kept as a missing value through `to_csv`) is modelled by `none` in
  `Option ℚ` for the `price` column.  `fillna(0)` on the pivot maps a missing
  side's volume and average price to `0`; since in `ℚ` division by zero is
  `0`, `total_volume / total_quantity` already equals the post-`fillna`
  average-price cell in every case.
* The filesystem contents of one `data/{symbol}/{market}` directory is a
  `Finset String` of file basenames.
* Python library behaviour that the code relies on is modelled from the
  CPython semantics: `pd.concat([])` raises `ValueError`;
  `zipfile.ZipFile(...)` raises `BadZipFile` on a non-archive payload before
  anything is written, while `extractall` on a structurally valid archive
  writes each member directly to its final path and raises `BadZipFile`
  (CRC mismatch) after the partially-written member file already exists;
  `requests.Response.raise_for_status` raises `RequestException` on a
  non-2xx status.
* `DataFrame.pivot` creates a side's `total_volume_*`/`average_price_*`
  columns only when that side occurs somewhere in the corpus, and `rename`
  ignores missing keys.  When a side is absent from the whole corpus the
  overall-price expression of `src/summary.py:63`–`66` therefore raises
  `KeyError` on that side's column name (the BUY columns are accessed first,
  so a corpus without BUY records raises `KeyError("Average Buy Price")`
  and a corpus with BUY but without SELL records raises
  `KeyError("Average Sell Price")`).  Only for a date missing one side while
  the side occurs on other dates does `fillna(0)` zero-fill the cells.
-/

namespace Liq

/-- Side of a liquidation event, the raw CSV `side` column. -/
inductive Side where
  | BUY
  | SELL
deriving DecidableEq, Repr

/-- One raw liquidation event record, the fields of the per-date CSV files
that `summarize_liquidations` reads: the millisecond event timestamp `time`,
the `side`, `original_quantity` and `average_price` columns.  (The real CSV
carries further columns; they take part only in `drop_duplicates`, so the
model's duplicates are records identical on every modelled field.) -/
structure RawRecord where
  time : Nat
  side : Side
  original_quantity : ℚ
  average_price : ℚ
deriving DecidableEq, Repr

/-- Embedding of `convert_timestamp_to_date` (`src/summary.py:8`): a
millisecond timestamp becomes a UTC day index
(`utcfromtimestamp(t/1000)` truncated to the day). -/
def convert_timestamp_to_date (t : Nat) : Nat :=
  t / 1000 / 86400

/-- The date column added at `src/summary.py:29`. -/
def rdate (r : RawRecord) : Nat :=
  convert_timestamp_to_date r.time

/-- The volume column added at `src/summary.py:32`:
`original_quantity * average_price`. -/
def volume (r : RawRecord) : ℚ :=
  r.original_quantity * r.average_price

/-- Embedding of `DataFrame.drop_duplicates` (`src/summary.py:26`), keeping
the first occurrence of every duplicated row. -/
def drop_duplicates {α : Type} [DecidableEq α] : List α → List α
  | [] => []
  | a :: as => a :: (drop_duplicates as).filter (fun x => x ≠ a)

/-- Per-(date, side) group total of the volume column, the
`total_volume=("volume", "sum")` aggregate at `src/summary.py:38`. -/
def total_volume (l : List RawRecord) (d : Nat) (s : Side) : ℚ :=
  ((l.filter (fun r => decide (rdate r = d ∧ r.side = s))).map volume).sum

/-- Per-(date, side) group total of `original_quantity`, the
`total_liquidations` aggregate at `src/summary.py:39`. -/
def total_quantity (l : List RawRecord) (d : Nat) (s : Side) : ℚ :=
  ((l.filter (fun r => decide (rdate r = d ∧ r.side = s))).map
    RawRecord.original_quantity).sum

/-- One output row of the pivoted summary (`src/summary.py:47`–`85`): the date
index, the `Shorts` (BUY volume) and `Longs` (SELL volume) columns, and the
overall `price`, `none` standing for the pandas `NaN` produced when both
volumes are zero. -/
structure DailySummaryRow where
  date : Nat
  Shorts : ℚ
  Longs : ℚ
  price : Option ℚ
deriving DecidableEq, Repr

/-- The row the pivot produces for one date `d` of the deduplicated data `l`
(`src/summary.py:44`–`81`): per-side volumes with `fillna(0)`, per-side
average prices `total_volume / total_quantity` (also `0` after `fillna` when
the side is absent, which `ℚ`'s zero-denominator division already gives),
and the overall weighted `price`
`(avgB·volB + avgS·volS) / (volB + volS)`, a missing value (`none`) when the
denominator is zero. -/
def mkRow (l : List RawRecord) (d : Nat) : DailySummaryRow :=
  let volB := total_volume l d Side.BUY
  let volS := total_volume l d Side.SELL
  let avgB := volB / total_quantity l d Side.BUY
  let avgS := volS / total_quantity l d Side.SELL
  { date := d
    Shorts := volB
    Longs := volS
    price :=
      if volB + volS = 0 then none
      else some ((avgB * volB + avgS * volS) / (volB + volS)) }

/-- The aggregation pipeline of `summarize_liquidations` after the files have
been concatenated (`src/summary.py:26`–`85`): deduplicate, group, pivot into
one row per distinct date, the date index sorted ascending (pandas `pivot`
sorts its index). -/
def summarize_rows (records : List RawRecord) : List DailySummaryRow :=
  let all_data := drop_duplicates records
  (List.insertionSort (fun a b => a ≤ b)
      (drop_duplicates (all_data.map rdate))).map (mkRow all_data)

/-- Python exception values that the modelled library calls raise. -/
inductive PyError where
  | valueError (msg : String)
  | keyError (msg : String)
deriving DecidableEq, Repr

/-- Bool test that some record of `l` lies on side `s` — whether the pivot
of `src/summary.py:47` creates that side's columns. -/
def has_side (l : List RawRecord) (s : Side) : Bool :=
  l.any (fun r => decide (r.side = s))

/-- Embedding of `summarize_liquidations` (`src/summary.py:12`–`85`) as a
function of the per-file record lists that the `glob` + `read_csv` loop
yields.  With no matching files, `pd.concat` of the empty list raises
`ValueError` (`src/summary.py:23`).  The pivot creates a side's columns only
when that side occurs in the (deduplicated) corpus, so when a whole side is
absent the overall-price expression of `src/summary.py:63`–`66` raises
`KeyError` on the first missing column it reads (the BUY columns are read
before the SELL columns).  Otherwise the concatenated records are
aggregated by `summarize_rows`. -/
def summarize_liquidations (files : List (List RawRecord)) :
    Except PyError (List DailySummaryRow) :=
  if files.isEmpty then
    Except.error (PyError.valueError "No objects to concatenate")
  else if has_side (drop_duplicates files.flatten) Side.BUY = false then
    Except.error (PyError.keyError "Average Buy Price")
  else if has_side (drop_duplicates files.flatten) Side.SELL = false then
    Except.error (PyError.keyError "Average Sell Price")
  else
    Except.ok (summarize_rows files.flatten)

/-! Embedding of `src/data.py`.  Python string `split` is modelled on
character lists. -/

/-- Helper for `split`: `some rest` when the first list is a prefix of the
second, `rest` the remainder after it. -/
def stripPrefixL : List Char → List Char → Option (List Char)
  | [], s => some s
  | _ :: _, [] => none
  | a :: as, b :: bs => if a = b then stripPrefixL as bs else none

/-- Helper for `split`: the text before and after the first occurrence of
the (nonempty) separator `sep`, `none` when `sep` does not occur. -/
def findSplit (sep : List Char) : List Char → Option (List Char × List Char)
  | [] => none
  | c :: cs =>
    match stripPrefixL sep (c :: cs) with
    | some rest => some ([], rest)
    | none =>
      match findSplit sep cs with
      | some pq => some (c :: pq.1, pq.2)
      | none => none

/-- Helper for `split(sep)[-1]`: repeatedly step past occurrences of `sep`;
the fuel argument (instantiated with the text length, an upper bound on the
number of occurrences) only makes the recursion structural. -/
def afterLastAux (sep : List Char) : Nat → List Char → List Char
  | 0, s => s
  | fuel + 1, s =>
    match findSplit sep s with
    | none => s
    | some pq => afterLastAux sep fuel pq.2

/-- Python `s.split(sep)[-1]` for a nonempty separator: the text after the
last occurrence of `sep`, or all of `s` when `sep` does not occur. -/
def splitLast (sep : List Char) (s : List Char) : List Char :=
  afterLastAux sep s.length s

/-- Embedding of `extract_date_from_filename` (`src/data.py:28`):
`filename.split("liquidationSnapshot-")[-1].split(".")[0]` — the text after
the last `liquidationSnapshot-` marker, truncated at the first `.`. -/
def extract_date_from_filename (f : String) : String :=
  String.mk ((splitLast "liquidationSnapshot-".data f.data).takeWhile
    (fun c => c ≠ '.'))

/-- Bool test that `s` ends with the given text (Python `str.endswith`, and
the `*.csv` glob of `get_local_dates`). -/
def endsWithL (tail s : List Char) : Bool :=
  (stripPrefixL tail.reverse s.reverse).isSome

/-- Embedding of `get_local_dates` (`src/data.py:32`): the set of dates
extracted from the basenames of the `*.csv` files in the
`{base}/{symbol}/{market}` directory, whose contents is the `files`
argument. -/
def get_local_dates (files : Finset String) : Finset String :=
  (files.filter (fun f => endsWithL ".csv".data f.data = true)).image
    extract_date_from_filename

/-- Embedding of `get_existing_files` (`src/data.py:13`).  The remote store
holds the object keys `allKeys` (in listing order) but caps a single listing
response at `cap` keys; the code issues exactly one request and collects the
`.zip` keys of that one response. -/
def get_existing_files (allKeys : List String) (cap : Nat) : List String :=
  (allKeys.take cap).filter (fun k => endsWithL ".zip".data k.data = true)

/-- The sync planner's diff, the expression
`missing_dates = existing_dates - local_dates` at `src/data.py:93`, as a
function of its two set arguments. -/
def missing_dates (existing_dates local_dates : Finset String) :
    Finset String :=
  existing_dates \ local_dates

/-- The payload `download_and_extract_zip` receives for one date, as
`zipfile` classifies it: either not a zip archive at all (`ZipFile(...)`
raises `BadZipFile` before anything is written), or a structurally valid
archive whose members each carry a name and a flag saying whether the
member's data is intact (a corrupt member makes `extractall` raise
`BadZipFile` on the CRC check, after the member's output file has already
been created at its final path). -/
inductive Payload where
  | notArchive
  | archive (members : List (String × Bool))
deriving DecidableEq, Repr

/-- Outcome of the `requests.get` + `raise_for_status` step: a non-2xx
status raises `RequestException`, otherwise the body is the payload. -/
inductive DownloadResult where
  | httpError (status : Nat)
  | ok (payload : Payload)
deriving DecidableEq, Repr

/-- The tagged per-job outcome the spec's ArchiveFetcher contract promises
(`Success | Failure{reason}`). -/
inductive JobOutcome where
  | success
  | failure (reason : String)
deriving DecidableEq, Repr

/-- The messages `download_and_extract_zip` prints from its two `except`
arms (`src/data.py:81` and `src/data.py:83`). -/
inductive Msg where
  | downloadFailed
  | extractFailed
deriving DecidableEq, Repr

/-- What `ZipFile.extractall` leaves in the extraction directory: member
files are written one by one directly at their final paths; the first
corrupt member's file is created and partially written before `BadZipFile`
is raised, and later members are not reached.  Returns the written file
names and whether extraction completed. -/
def extractall : List (String × Bool) → List String × Bool
  | [] => ([], true)
  | m :: ms =>
    if m.2 then
      let r := extractall ms
      (m.1 :: r.1, r.2)
    else ([m.1], false)

/-- Result of one `download_and_extract_zip` call: the extraction
directory's contents afterwards, the printed messages, and the Python
return value — the function body has no `return` statement, so the value is
`None`, modelled as `none : Option JobOutcome` against the spec's
`JobOutcome` contract. -/
structure FetchResult where
  files : Finset String
  log : List Msg
  ret : Option JobOutcome
deriving DecidableEq

/-- Embedding of `download_and_extract_zip` (`src/data.py:41`): download the
date's archive and extract it directly into the (already created)
`{base}/{symbol}/{market}` directory whose prior contents is `st`.
`RequestException` and `BadZipFile` are caught and printed
(`src/data.py:80`–`83`); in every arm the function falls off the end and
returns `None`. -/
def download_and_extract_zip (res : DownloadResult) (st : Finset String) :
    FetchResult :=
  match res with
  | DownloadResult.httpError _ =>
    { files := st, log := [Msg.downloadFailed], ret := none }
  | DownloadResult.ok Payload.notArchive =>
    { files := st, log := [Msg.extractFailed], ret := none }
  | DownloadResult.ok (Payload.archive ms) =>
    let e := extractall ms
    { files := st ∪ e.1.toFinset
      log := if e.2 then [] else [Msg.extractFailed]
      ret := none }

/-- The volume column in which a row reports side `s`, the fixed side→name
mapping of `src/summary.py:76`–`77`: BUY volume is the `Shorts` column, SELL
volume the `Longs` column. -/
def side_column (row : DailySummaryRow) : Side → ℚ
  | Side.BUY => row.Shorts
  | Side.SELL => row.Longs

/-- The opposite side. -/
def other_side : Side → Side
  | Side.BUY => Side.SELL
  | Side.SELL => Side.BUY

/-! Helper lemmas about `drop_duplicates`. -/

/-- Membership is invariant under deduplication. -/
theorem mem_drop_duplicates {α : Type} [DecidableEq α] {a : α} :
    ∀ {l : List α}, a ∈ drop_duplicates l ↔ a ∈ l
  | [] => Iff.rfl
  | b :: bs => by
    simp only [drop_duplicates, List.mem_cons, List.mem_filter,
      mem_drop_duplicates (l := bs), decide_eq_true_eq]
    by_cases hab : a = b
    · simp [hab]
    · simp [hab]

/-- Deduplication yields a list without duplicates. -/
theorem drop_duplicates_nodup {α : Type} [DecidableEq α] :
    ∀ (l : List α), (drop_duplicates l).Nodup
  | [] => List.nodup_nil
  | b :: bs => by
    rw [drop_duplicates, List.nodup_cons]
    refine ⟨fun hmem => ?_, (drop_duplicates_nodup bs).filter _⟩
    have := List.of_mem_filter hmem
    simp at this

/-- A list without duplicates is a permutation of any one of its elements
consed onto the rest with that element filtered away. -/
theorem nodup_perm_cons_filter {α : Type} [DecidableEq α] {a : α}
    {l : List α} (hmem : a ∈ l) (hnd : l.Nodup) :
    List.Perm l (a :: l.filter (fun x => x ≠ a)) := by
  induction l with
  | nil => cases hmem
  | cons b bs ih =>
    rcases List.mem_cons.mp hmem with hab | hmem'
    · subst hab
      have hnotin : a ∉ bs := (List.nodup_cons.mp hnd).1
      have hfil : (a :: bs).filter (fun x => x ≠ a) = bs := by
        rw [List.filter_cons, if_neg (by simp)]
        exact List.filter_eq_self.mpr fun x hx => by
          simp only [decide_eq_true_eq]
          exact fun hxa => hnotin (hxa ▸ hx)
      rw [hfil]
    · have hab : b ≠ a := by
        intro hba
        exact (List.nodup_cons.mp hnd).1 (hba ▸ hmem')
      have step := ih hmem' (List.nodup_cons.mp hnd).2
      have hfil : (b :: bs).filter (fun x => x ≠ a) =
          b :: bs.filter (fun x => x ≠ a) := by
        rw [List.filter_cons, if_pos (by simp [hab])]
      rw [hfil]
      exact (step.cons b).trans (List.Perm.swap a b _)

/-- Inserting an element already present and re-deduplicating permutes the
deduplicated list. -/
theorem drop_duplicates_cons_perm {α : Type} [DecidableEq α] {a : α}
    {l : List α} (h : a ∈ l) :
    List.Perm (drop_duplicates (a :: l)) (drop_duplicates l) := by
  rw [drop_duplicates]
  exact (nodup_perm_cons_filter (mem_drop_duplicates.mpr h)
    (drop_duplicates_nodup l)).symm

/-- Deduplication sends permuted lists to permuted lists. -/
theorem drop_duplicates_perm {α : Type} [DecidableEq α] {l₁ l₂ : List α}
    (h : List.Perm l₁ l₂) :
    List.Perm (drop_duplicates l₁) (drop_duplicates l₂) :=
  (List.perm_ext_iff_of_nodup (drop_duplicates_nodup l₁)
    (drop_duplicates_nodup l₂)).mpr
    (fun a => by rw [mem_drop_duplicates, mem_drop_duplicates, h.mem_iff])

/-! Congruence of the aggregation under permutation of the records. -/

/-- The per-group volume total only depends on the records up to order. -/
theorem total_volume_congr {l₁ l₂ : List RawRecord} (h : List.Perm l₁ l₂)
    (d : Nat) (s : Side) : total_volume l₁ d s = total_volume l₂ d s :=
  ((h.filter _).map volume).sum_eq

/-- The per-group quantity total only depends on the records up to order. -/
theorem total_quantity_congr {l₁ l₂ : List RawRecord} (h : List.Perm l₁ l₂)
    (d : Nat) (s : Side) : total_quantity l₁ d s = total_quantity l₂ d s :=
  ((h.filter _).map RawRecord.original_quantity).sum_eq

/-- The date of a pivot row is the group key itself. -/
@[simp] theorem mkRow_date (l : List RawRecord) (d : Nat) :
    (mkRow l d).date = d := rfl

/-- A pivot row only depends on the records up to order. -/
theorem mkRow_congr {l₁ l₂ : List RawRecord} (h : List.Perm l₁ l₂) (d : Nat) :
    mkRow l₁ d = mkRow l₂ d := by
  simp only [mkRow]
  rw [total_volume_congr h d Side.BUY, total_volume_congr h d Side.SELL,
    total_quantity_congr h d Side.BUY, total_quantity_congr h d Side.SELL]

/-- Sorting two permuted lists gives the same list. -/
theorem insertionSort_eq_of_perm {l₁ l₂ : List Nat} (h : List.Perm l₁ l₂) :
    List.insertionSort (fun a b => a ≤ b) l₁ =
    List.insertionSort (fun a b => a ≤ b) l₂ :=
  List.eq_of_perm_of_sorted
    ((List.perm_insertionSort _ l₁).trans
      (h.trans (List.perm_insertionSort _ l₂).symm))
    (List.sorted_insertionSort _ l₁) (List.sorted_insertionSort _ l₂)

/-- The whole summary only depends on the deduplicated records up to
order. -/
theorem summarize_rows_congr {l₁ l₂ : List RawRecord}
    (h : List.Perm (drop_duplicates l₁) (drop_duplicates l₂)) :
    summarize_rows l₁ = summarize_rows l₂ := by
  show List.map (mkRow (drop_duplicates l₁))
      (List.insertionSort (fun a b => a ≤ b)
        (drop_duplicates ((drop_duplicates l₁).map rdate))) =
    List.map (mkRow (drop_duplicates l₂))
      (List.insertionSort (fun a b => a ≤ b)
        (drop_duplicates ((drop_duplicates l₂).map rdate)))
  rw [insertionSort_eq_of_perm (drop_duplicates_perm (h.map rdate))]
  exact List.map_congr_left fun d _ => mkRow_congr h d

/-- The `Shorts` column of a pivot row is the BUY volume total. -/
theorem mkRow_Shorts (l : List RawRecord) (d : Nat) :
    (mkRow l d).Shorts = total_volume l d Side.BUY := rfl

/-- The `Longs` column of a pivot row is the SELL volume total. -/
theorem mkRow_Longs (l : List RawRecord) (d : Nat) :
    (mkRow l d).Longs = total_volume l d Side.SELL := rfl

/-- The `price` column of a pivot row, spelled out. -/
theorem mkRow_price (l : List RawRecord) (d : Nat) :
    (mkRow l d).price =
    (if total_volume l d Side.BUY + total_volume l d Side.SELL = 0 then none
     else some (((total_volume l d Side.BUY / total_quantity l d Side.BUY) *
          total_volume l d Side.BUY +
        (total_volume l d Side.SELL / total_quantity l d Side.SELL) *
          total_volume l d Side.SELL) /
        (total_volume l d Side.BUY + total_volume l d Side.SELL))) := rfl

/-- Group totals over a list with no record of date `d` and side `s` are
zero. -/
theorem totals_zero_of_no_records {l : List RawRecord} {d : Nat} {s : Side}
    (h : ∀ r ∈ l, rdate r = d → r.side ≠ s) :
    total_volume l d s = 0 ∧ total_quantity l d s = 0 := by
  have hfil : l.filter (fun r => decide (rdate r = d ∧ r.side = s)) = [] :=
    List.filter_eq_nil_iff.mpr fun r hr => by
      simp only [decide_eq_true_eq]
      rintro ⟨h1, h2⟩
      exact h r hr h1 h2
  constructor <;>
    simp only [total_volume, total_quantity, hfil, List.map_nil, List.sum_nil]

/-- A member of the summary output is the pivot row of one of the distinct
dates of the deduplicated data. -/
theorem mem_summarize_rows {records : List RawRecord}
    {row : DailySummaryRow} (hmem : row ∈ summarize_rows records) :
    ∃ d, row = mkRow (drop_duplicates records) d := by
  simp only [summarize_rows] at hmem
  rcases List.mem_map.mp hmem with ⟨d, _, hrow⟩
  exact ⟨d, hrow.symm⟩

/-- Presence of a side is invariant under permutation of the records. -/
theorem has_side_congr {l₁ l₂ : List RawRecord} (h : List.Perm l₁ l₂)
    (s : Side) : has_side l₁ s = has_side l₂ s := by
  unfold has_side
  cases h1 : l₁.any (fun r => decide (r.side = s)) <;>
    cases h2 : l₂.any (fun r => decide (r.side = s)) <;> try rfl
  · rw [List.any_eq_true] at h2
    rw [List.any_eq_false] at h1
    rcases h2 with ⟨a, ha, hpa⟩
    exact absurd hpa (h1 a (h.mem_iff.mpr ha))
  · rw [List.any_eq_true] at h1
    rw [List.any_eq_false] at h2
    rcases h1 with ⟨a, ha, hpa⟩
    exact absurd hpa (h2 a (h.mem_iff.mp ha))

/-- A successful summary run is the pivot of the deduplicated concatenated
records. -/
theorem summarize_liquidations_ok {fs : List (List RawRecord)}
    {rows : List DailySummaryRow}
    (hok : summarize_liquidations fs = Except.ok rows) :
    rows = summarize_rows fs.flatten := by
  rw [summarize_liquidations] at hok
  by_cases hemp : fs.isEmpty
  · rw [if_pos hemp] at hok
    cases hok
  rw [if_neg hemp] at hok
  by_cases hb : has_side (drop_duplicates fs.flatten) Side.BUY = false
  · rw [if_pos hb] at hok
    cases hok
  rw [if_neg hb] at hok
  by_cases hs : has_side (drop_duplicates fs.flatten) Side.SELL = false
  · rw [if_pos hs] at hok
    cases hok
  rw [if_neg hs] at hok
  exact (Except.ok.inj hok).symm

/-- Two nonempty file lists whose deduplicated concatenations are
permutations of each other run to the same result, crash or not. -/
theorem summarize_liquidations_eq_of_perm {fs₁ fs₂ : List (List RawRecord)}
    (h1 : fs₁.isEmpty = false) (h2 : fs₂.isEmpty = false)
    (hperm : List.Perm (drop_duplicates fs₁.flatten)
      (drop_duplicates fs₂.flatten)) :
    summarize_liquidations fs₁ = summarize_liquidations fs₂ := by
  have hB := has_side_congr hperm Side.BUY
  have hS := has_side_congr hperm Side.SELL
  have hR := summarize_rows_congr hperm
  rw [summarize_liquidations, summarize_liquidations, hB, hS, hR]
  simp only [h1, h2, Bool.false_eq_true, if_false]

/-! Claim theorems. -/

/-- C1: for the input consisting exactly of the records
{date=2024-01-01 (day 19723), side=BUY, qty=2, avg_price=100} and
{date=2024-01-01, side=SELL, qty=1, avg_price=200}, `summarize_liquidations`
produces exactly one row {date=2024-01-01, Shorts=200, Longs=200, price=150}:
the BUY volume 2·100 = 200 lands in the `Shorts` column, the SELL volume
1·200 = 200 in the `Longs` column, and the price is the volume-weighted mean
(100·200 + 200·200) / (200 + 200) = 150. -/
theorem C1_aggregation_example :
    summarize_liquidations
      [[⟨1704067200000, Side.BUY, 2, 100⟩, ⟨1704067200000, Side.SELL, 1, 200⟩]] =
    Except.ok [⟨19723, 200, 200, some 150⟩] := by
  simp [summarize_liquidations, has_side, summarize_rows, drop_duplicates,
    mkRow, total_volume, total_quantity, rdate, volume,
    convert_timestamp_to_date, List.insertionSort, List.orderedInsert]
  norm_num

/-- C2: the sync planner's diff (`missing_dates = existing_dates -
local_dates`, `src/data.py:93`) is exactly set difference: for all remote
sets R and local sets L, plan(R, L) = R - L, plan(R, R) = ∅ and
plan(R, ∅) = R; it is a pure total function of its two set arguments. -/
theorem C2_plan_is_set_difference (R L : Finset String) :
    missing_dates R L = R \ L ∧ missing_dates R R = ∅ ∧
    missing_dates R ∅ = R := by
  refine ⟨rfl, ?_, ?_⟩ <;> simp [missing_dates]

/-- C3 counterexample: the claim that a corrupt payload never leaves a file
discoverable at the date's final path is false.  A structurally valid zip
whose single member `BTCUSDT-liquidationSnapshot-2024-01-02.csv` has corrupt
data makes `extractall` create that file at its final path before the CRC
check raises `BadZipFile`; starting from an empty directory, the local date
set afterwards is {2024-01-02} ≠ ∅ — extraction is not atomic
(`src/data.py:76`–`77` extracts directly into the final directory, with no
staging or rename). -/
theorem C3_cex :
    get_local_dates ((download_and_extract_zip
      (DownloadResult.ok (Payload.archive
        [("BTCUSDT-liquidationSnapshot-2024-01-02.csv", false)])) ∅).files) ≠
    get_local_dates ∅ := by decide

/-- C3 amended: extraction aborts before writing anything only when the
payload cannot be opened as a zip archive at all (and on download failure):
in those cases the directory contents — hence the local date set a later
`get_local_dates` scan discovers — is unchanged.  A structurally valid
archive with a corrupt member, by contrast, leaves a partially-written file
at its final path (see `C3_cex`). -/
theorem C3_unopenable_payload_leaves_no_file (st : Finset String)
    (code : Nat) :
    (download_and_extract_zip (DownloadResult.httpError code) st).files = st ∧
    (download_and_extract_zip (DownloadResult.ok Payload.notArchive) st).files
      = st :=
  ⟨rfl, rfl⟩

/-- C4 counterexample: the claim that `download_and_extract_zip` returns a
`JobOutcome` value — `Failure{reason: "download"}` for a download failure
such as a 404 — is false: the Python function has no `return` statement and
yields `None` in every arm. -/
theorem C4_cex :
    (download_and_extract_zip (DownloadResult.httpError 404) ∅).ret ≠
    some (JobOutcome.failure "download") := by decide

/-- C4 amended: for the modelled failure modes (non-2xx download status,
non-archive payload, corrupt archive member) no exception escapes
`download_and_extract_zip` — the embedding is a total function whose
`except` arms absorb `RequestException` and `BadZipFile` — but the function
does not return a tagged `JobOutcome`: it returns `None` on every input,
and failures are reported only through the printed messages of
`src/data.py:81` and `src/data.py:83`. -/
theorem C4_fetch_absorbs_failures_returns_none (res : DownloadResult)
    (st : Finset String) (code : Nat) (ms : List (String × Bool)) :
    (download_and_extract_zip res st).ret = none ∧
    (download_and_extract_zip (DownloadResult.httpError code) st).log =
      [Msg.downloadFailed] ∧
    (download_and_extract_zip (DownloadResult.ok Payload.notArchive) st).log =
      [Msg.extractFailed] ∧
    (download_and_extract_zip (DownloadResult.ok (Payload.archive ms)) st).log
      = (if (extractall ms).2 then [] else [Msg.extractFailed]) := by
  refine ⟨?_, rfl, rfl, rfl⟩
  cases res with
  | httpError c => rfl
  | ok p => cases p <;> rfl

/-- C6 counterexample: with no local raw-event files,
`summarize_liquidations` does not return an empty sequence of rows — line
23's `pd.concat` of an empty list raises `ValueError`. -/
theorem C6_cex :
    summarize_liquidations ([] : List (List RawRecord)) ≠ Except.ok [] := by
  simp [summarize_liquidations]

/-- C6 amended: when no local raw-event files exist, the `glob` loop yields
no DataFrames and `pd.concat` raises
`ValueError("No objects to concatenate")`; `summarize_liquidations` raises
rather than returning an empty sequence. -/
theorem C6_empty_input_raises :
    summarize_liquidations ([] : List (List RawRecord)) =
    Except.error (PyError.valueError "No objects to concatenate") := rfl

/-- C7 counterexample: the claim that `get_existing_files` enumerates every
page of the remote listing is false — `src/data.py:14` issues a single
request with no continuation marker and parses only that response.  With two
published `.zip` keys and a store that caps one listing response at 1 key,
the key (and so the date) on the second page is missing from the result. -/
theorem C7_cex :
    "BTCUSDT-liquidationSnapshot-2024-01-02.zip" ∈
      ["BTCUSDT-liquidationSnapshot-2024-01-01.zip",
       "BTCUSDT-liquidationSnapshot-2024-01-02.zip"] ∧
    "BTCUSDT-liquidationSnapshot-2024-01-02.zip" ∉
      get_existing_files
        ["BTCUSDT-liquidationSnapshot-2024-01-01.zip",
         "BTCUSDT-liquidationSnapshot-2024-01-02.zip"] 1 := by decide

/-- C7 amended: `get_existing_files` returns exactly the `.zip` keys of the
single (first) listing response; only when every published key fits into
that one response (no truncation) does the result contain all published
archive keys. -/
theorem C7_first_page_only (allKeys : List String) (cap : Nat)
    (h : allKeys.length ≤ cap) :
    get_existing_files allKeys cap =
    allKeys.filter (fun k => endsWithL ".zip".data k.data = true) := by
  unfold get_existing_files
  rw [List.take_of_length_le h]

/-- C5 counterexample: the claim that every date with zero volume on both
sides gets a row with the undefined-price sentinel is false when the corpus
is wholly one-sided.  On the BUY-only corpus with one zero-quantity record,
the pivot has no SELL columns and `src/summary.py:63` raises
`KeyError("Average Sell Price")`: no row is emitted at all, rather than the
sentinel row the claim promises. -/
theorem C5_cex :
    summarize_liquidations [[⟨1704067200000, Side.BUY, 0, 100⟩]] =
      Except.error (PyError.keyError "Average Sell Price") ∧
    summarize_liquidations [[⟨1704067200000, Side.BUY, 0, 100⟩]] ≠
      Except.ok [⟨19723, 0, 0, none⟩] := by
  have h1 : summarize_liquidations [[⟨1704067200000, Side.BUY, 0, 100⟩]] =
      Except.error (PyError.keyError "Average Sell Price") := by
    simp [summarize_liquidations, has_side, drop_duplicates]
  refine ⟨h1, ?_⟩
  rw [h1]
  simp

/-- C5 amended: in any run that returns rows (which requires both sides to
occur somewhere in the corpus, else `src/summary.py:63` raises `KeyError`
first), every emitted row whose volume is zero on both sides carries the
explicit undefined-price marker (`none`, the pandas `NaN` missing value the
zero-denominator division produces) — never a silent `0`, and no
divide-by-zero fault occurs. -/
theorem C5_zero_volume_price_undefined (fs : List (List RawRecord))
    (rows : List DailySummaryRow) (row : DailySummaryRow)
    (hok : summarize_liquidations fs = Except.ok rows) (hmem : row ∈ rows)
    (hS : row.Shorts = 0) (hL : row.Longs = 0) :
    row.price = none := by
  have hrows := summarize_liquidations_ok hok
  subst hrows
  rcases mem_summarize_rows hmem with ⟨d, hrow⟩
  subst hrow
  rw [mkRow_Shorts] at hS
  rw [mkRow_Longs] at hL
  rw [mkRow_price, hS, hL]
  simp

/-- Witness for `C5_zero_volume_price_undefined`: a two-sided corpus whose
only date has zero quantity on both sides yields the single row
{date=19723, Shorts=0, Longs=0, price=NaN}. -/
theorem C5_zero_volume_price_undefined_witness :
    summarize_liquidations [[⟨1704067200000, Side.BUY, 0, 100⟩,
        ⟨1704067200000, Side.SELL, 0, 50⟩]] =
      Except.ok [⟨19723, 0, 0, none⟩] ∧
    (⟨19723, 0, 0, none⟩ : DailySummaryRow).price = none := by
  have hok : summarize_liquidations [[⟨1704067200000, Side.BUY, 0, 100⟩,
        ⟨1704067200000, Side.SELL, 0, 50⟩]] =
      Except.ok [⟨19723, 0, 0, none⟩] := by
    simp [summarize_liquidations, has_side, summarize_rows, drop_duplicates,
      mkRow, total_volume, total_quantity, rdate, volume,
      convert_timestamp_to_date, List.insertionSort, List.orderedInsert]
  exact ⟨hok, C5_zero_volume_price_undefined _ _ _ hok (by simp) rfl rfl⟩

/-- C9: the rows a successful aggregation returns are strictly ascending by
date — each date occurs in at most one row and dates of successive rows
strictly increase. -/
theorem C9_rows_strictly_ascending (fs : List (List RawRecord))
    (rows : List DailySummaryRow)
    (hok : summarize_liquidations fs = Except.ok rows) :
    (rows.map DailySummaryRow.date).Sorted (fun a b => a < b) := by
  have hrows := summarize_liquidations_ok hok
  subst hrows
  simp only [summarize_rows, List.map_map]
  have hid : List.map (DailySummaryRow.date ∘
        mkRow (drop_duplicates fs.flatten))
      (List.insertionSort (fun a b => a ≤ b)
        (drop_duplicates ((drop_duplicates fs.flatten).map rdate))) =
      List.insertionSort (fun a b => a ≤ b)
        (drop_duplicates ((drop_duplicates fs.flatten).map rdate)) :=
    List.map_id'' (fun d => rfl) _
  rw [hid]
  exact (List.sorted_insertionSort _ _).lt_of_le
    ((List.perm_insertionSort _ _).symm.nodup (drop_duplicates_nodup _))

/-- Witness for `C9_rows_strictly_ascending` on a concrete two-date
corpus. -/
theorem C9_rows_strictly_ascending_witness :
    summarize_liquidations
      [[⟨1704067200000, Side.BUY, 2, 100⟩], [⟨1704153600000, Side.SELL, 1, 200⟩]] =
      Except.ok [⟨19723, 200, 0, some 100⟩, ⟨19724, 0, 200, some 200⟩] ∧
    (([⟨19723, 200, 0, some 100⟩, ⟨19724, 0, 200, some 200⟩] :
        List DailySummaryRow).map DailySummaryRow.date).Sorted
      (fun a b => a < b) := by
  have hok : summarize_liquidations
      [[⟨1704067200000, Side.BUY, 2, 100⟩], [⟨1704153600000, Side.SELL, 1, 200⟩]] =
      Except.ok [⟨19723, 200, 0, some 100⟩, ⟨19724, 0, 200, some 200⟩] := by
    simp [summarize_liquidations, has_side, summarize_rows, drop_duplicates,
      mkRow, total_volume, total_quantity, rdate, volume,
      convert_timestamp_to_date, List.insertionSort, List.orderedInsert]
    norm_num
  exact ⟨hok, C9_rows_strictly_ascending _ _ hok⟩

/-- Witness for `C7_first_page_only` at a concrete untruncated listing. -/
theorem C7_first_page_only_witness :
    (["BTCUSDT-liquidationSnapshot-2024-01-01.zip"] : List String).length ≤ 5 ∧
    get_existing_files ["BTCUSDT-liquidationSnapshot-2024-01-01.zip"] 5 =
      ["BTCUSDT-liquidationSnapshot-2024-01-01.zip"] := by
  refine ⟨by decide, ?_⟩
  rw [C7_first_page_only ["BTCUSDT-liquidationSnapshot-2024-01-01.zip"] 5
    (by decide)]
  decide

/-- C8: inserting an exact duplicate of a record already in the corpus (as
an extra file, the way overlapping or re-run fetches produce repeated data)
leaves the aggregated output unchanged — deduplication happens before
aggregation, so volumes are not double-counted. -/
theorem C8_duplicate_record_no_double_count (fs : List (List RawRecord))
    (r : RawRecord) (h : r ∈ fs.flatten) :
    summarize_liquidations ([r] :: fs) = summarize_liquidations fs := by
  have hfs : fs.isEmpty = false := by
    cases fs with
    | nil => simp at h
    | cons a as => rfl
  have hperm : List.Perm (drop_duplicates (([r] :: fs).flatten))
      (drop_duplicates fs.flatten) := by
    have hflat : ([r] :: fs).flatten = r :: fs.flatten := by simp
    rw [hflat]
    exact drop_duplicates_cons_perm h
  exact summarize_liquidations_eq_of_perm rfl hfs hperm

/-- Witness for `C8_duplicate_record_no_double_count`: duplicating the BUY
record of the two-record corpus changes nothing. -/
theorem C8_duplicate_record_no_double_count_witness :
    (⟨1704067200000, Side.BUY, 2, 100⟩ : RawRecord) ∈
      ([[⟨1704067200000, Side.BUY, 2, 100⟩,
         ⟨1704067200000, Side.SELL, 1, 200⟩]] :
        List (List RawRecord)).flatten ∧
    summarize_liquidations
      ([⟨1704067200000, Side.BUY, 2, 100⟩] ::
        [[⟨1704067200000, Side.BUY, 2, 100⟩,
          ⟨1704067200000, Side.SELL, 1, 200⟩]]) =
    summarize_liquidations
      [[⟨1704067200000, Side.BUY, 2, 100⟩,
        ⟨1704067200000, Side.SELL, 1, 200⟩]] :=
  ⟨by simp, C8_duplicate_record_no_double_count _ _ (by simp)⟩

/-- Arithmetic of the weighted price when the SELL side is absent. -/
theorem single_side_price_buy (v q z : ℚ) (hv : v ≠ 0) :
    (v / q * v + 0 / z * 0) / (v + 0) = v / q := by
  rw [zero_div, zero_mul, add_zero, add_zero, mul_comm (v / q) v,
    mul_div_cancel_left₀ _ hv]

/-- Arithmetic of the weighted price when the BUY side is absent. -/
theorem single_side_price_sell (v q z : ℚ) (hv : v ≠ 0) :
    (0 / z * 0 + v / q * v) / (0 + v) = v / q := by
  rw [zero_div, zero_mul, zero_add, zero_add, mul_comm (v / q) v,
    mul_div_cancel_left₀ _ hv]

/-- C10 amended: in any run that returns rows (which requires both sides to
occur somewhere in the corpus — a wholly one-sided corpus instead raises
`KeyError` at `src/summary.py:63` and emits nothing, see `C10_cex`), for a
date whose deduplicated records all lie on one side `s`, provided that
side's total volume is nonzero, the emitted row has `0` in the absent
side's column and its price is the present side's own volume-weighted
average (total volume over total quantity).  When the present side's total
volume is zero the code instead produces the undefined-price marker (see
`C10_cex`), so neither hypothesis can be dropped. -/
theorem C10_single_sided_date (fs : List (List RawRecord))
    (rows : List DailySummaryRow) (row : DailySummaryRow) (s : Side)
    (hok : summarize_liquidations fs = Except.ok rows) (hmem : row ∈ rows)
    (hside : ∀ r ∈ drop_duplicates fs.flatten, rdate r = row.date → r.side = s)
    (hvol : total_volume (drop_duplicates fs.flatten) row.date s ≠ 0) :
    side_column row (other_side s) = 0 ∧
    row.price = some (total_volume (drop_duplicates fs.flatten) row.date s /
      total_quantity (drop_duplicates fs.flatten) row.date s) := by
  have hrows := summarize_liquidations_ok hok
  subst hrows
  rcases mem_summarize_rows hmem with ⟨d, hrow⟩
  subst hrow
  rw [mkRow_date] at hside hvol ⊢
  have hne : ∀ r ∈ drop_duplicates fs.flatten, rdate r = d →
      r.side ≠ other_side s := fun r hr hrd => by
    rw [hside r hr hrd]
    cases s <;> simp [other_side]
  have hz := totals_zero_of_no_records hne
  cases s with
  | BUY =>
    simp only [other_side] at hz
    constructor
    · show (mkRow (drop_duplicates fs.flatten) d).Longs = 0
      rw [mkRow_Longs]
      exact hz.1
    · rw [mkRow_price, hz.1, if_neg (by rw [add_zero]; exact hvol),
        single_side_price_buy _ _ _ hvol]
  | SELL =>
    simp only [other_side] at hz
    constructor
    · show (mkRow (drop_duplicates fs.flatten) d).Shorts = 0
      rw [mkRow_Shorts]
      exact hz.1
    · rw [mkRow_price, hz.1, if_neg (by rw [zero_add]; exact hvol),
        single_side_price_sell _ _ _ hvol]

/-- C10 counterexample: the claim fails in two ways.  First, a wholly
one-sided corpus (one BUY record, quantity 2, price 100) emits no row at
all: the pivot has no SELL columns and `src/summary.py:63` raises
`KeyError("Average Sell Price")`.  Second, even when the other side occurs
on another date so the run returns rows, a single-sided date with zero
volume (one BUY record, quantity 1, price 0) gets the undefined-price
marker, not the claim's present-side average (1·0)/1 = 0. -/
theorem C10_cex :
    summarize_liquidations [[⟨1704067200000, Side.BUY, 2, 100⟩]] =
      Except.error (PyError.keyError "Average Sell Price") ∧
    summarize_liquidations
        [[⟨1704067200000, Side.BUY, 1, 0⟩,
          ⟨1704153600000, Side.SELL, 1, 50⟩]] =
      Except.ok [⟨19723, 0, 0, none⟩, ⟨19724, 0, 50, some 50⟩] ∧
    (none : Option ℚ) ≠ some ((1 * 0 : ℚ) / 1) := by
  refine ⟨?_, ?_, by simp⟩
  · simp [summarize_liquidations, has_side, drop_duplicates]
  · simp [summarize_liquidations, has_side, summarize_rows, drop_duplicates,
      mkRow, total_volume, total_quantity, rdate, volume,
      convert_timestamp_to_date, List.insertionSort, List.orderedInsert]

/-- Witness for `C10_single_sided_date`: in a two-sided corpus whose date
19723 records are all BUY (quantity 2, price 100; the SELL record lies on
date 19724), date 19723's row is {Shorts=200, Longs=0, price=100}, the BUY
side's own weighted average 200/2. -/
theorem C10_single_sided_date_witness :
    summarize_liquidations
        [[⟨1704067200000, Side.BUY, 2, 100⟩,
          ⟨1704153600000, Side.SELL, 1, 50⟩]] =
      Except.ok [⟨19723, 200, 0, some 100⟩, ⟨19724, 0, 50, some 50⟩] ∧
    side_column (⟨19723, 200, 0, some 100⟩ : DailySummaryRow)
      (other_side Side.BUY) = 0 ∧
    (⟨19723, 200, 0, some 100⟩ : DailySummaryRow).price =
      some (total_volume (drop_duplicates
          ([[⟨1704067200000, Side.BUY, 2, 100⟩,
             ⟨1704153600000, Side.SELL, 1, 50⟩]] :
            List (List RawRecord)).flatten) 19723 Side.BUY /
        total_quantity (drop_duplicates
          ([[⟨1704067200000, Side.BUY, 2, 100⟩,
             ⟨1704153600000, Side.SELL, 1, 50⟩]] :
            List (List RawRecord)).flatten) 19723 Side.BUY) := by
  have hok : summarize_liquidations
      [[⟨1704067200000, Side.BUY, 2, 100⟩,
        ⟨1704153600000, Side.SELL, 1, 50⟩]] =
      Except.ok [⟨19723, 200, 0, some 100⟩, ⟨19724, 0, 50, some 50⟩] := by
    simp [summarize_liquidations, has_side, summarize_rows, drop_duplicates,
      mkRow, total_volume, total_quantity, rdate, volume,
      convert_timestamp_to_date, List.insertionSort, List.orderedInsert]
    norm_num
  have hmain := C10_single_sided_date
    [[⟨1704067200000, Side.BUY, 2, 100⟩, ⟨1704153600000, Side.SELL, 1, 50⟩]]
    [⟨19723, 200, 0, some 100⟩, ⟨19724, 0, 50, some 50⟩]
    ⟨19723, 200, 0, some 100⟩ Side.BUY hok (by simp)
    (by
      intro r hr hrd
      simp [drop_duplicates] at hr
      rcases hr with hcase | hcase
      · subst hcase
        rfl
      · subst hcase
        simp [rdate, convert_timestamp_to_date] at hrd)
    (by
      simp [total_volume, drop_duplicates, rdate, volume,
        convert_timestamp_to_date])
  exact ⟨hok, hmain.1, hmain.2⟩

end Liq
